import Mathlib

/-!
# Verification of the mkdocs "tags" plugin (`src/tags/plugin.py`)

Shallow embedding of the plugin's core pipeline: front-matter extraction
(`get_metadata` / `extract_yaml`), the two tag-index builders
(`update_tags_dict` and the index built inside `generate_tags_file`),
the render-time sorting of `generate_tags_page`, and the lifecycle hooks
(`on_config`, `on_files`, `on_page_markdown`).

Python strings are modelled as Lean `String`s, with the Python string
primitives re-implemented structurally over `String.data` (`List Char`) so
that every definition evaluates by kernel reduction.  The primitives agree
with Python on ASCII input (the plugin's own docstring and the spec restrict
the interesting metadata to ASCII-ish front matter); full-Unicode
case-mapping differences of `str.lower`/`str.strip` are out of scope.

Python dictionaries are modelled as insertion-ordered association lists
(CPython dicts preserve insertion order; assignment to an existing key keeps
its position), and Python's `sorted` as a stable sort by key, which is
extensionally the unique "stable ascending by key" reordering.

`yaml.load` and the jinja template file are external collaborators whose
code is not part of `src/`; they are modelled from the spec where needed
(see `miniYamlLoad` and `renderTemplate`).
-/

deriving instance DecidableEq for Except

/-- A YAML-ish scalar/compound value appearing in a page's front matter:
the value shapes the plugin's code paths distinguish (`None`, strings,
integers, lists). -/
inductive Val where
  | null : Val
  | str : String → Val
  | int : Int → Val
  | list : List Val → Val

mutual

/-- Boolean structural equality on values (Python `==` on the modelled
value shapes). -/
def Val.beq : Val → Val → Bool
  | Val.null, Val.null => true
  | Val.str a, Val.str b => a == b
  | Val.int a, Val.int b => a == b
  | Val.list as, Val.list bs => Val.beqL as bs
  | _, _ => false

/-- Boolean structural equality on value lists. -/
def Val.beqL : List Val → List Val → Bool
  | [], [] => true
  | a :: as, b :: bs => Val.beq a b && Val.beqL as bs
  | _, _ => false

end

mutual

/-- `Val.beq` decides propositional equality. -/
def Val.beq_iff : ∀ a b : Val, Val.beq a b = true ↔ a = b
  | Val.null, b => by cases b <;> simp [Val.beq]
  | Val.str a, b => by cases b <;> simp [Val.beq]
  | Val.int a, b => by cases b <;> simp [Val.beq]
  | Val.list as, b => by
    cases b <;> simp [Val.beq]
    exact Val.beqL_iff as _

/-- `Val.beqL` decides propositional equality of value lists. -/
def Val.beqL_iff : ∀ as bs : List Val, Val.beqL as bs = true ↔ as = bs
  | [], bs => by cases bs <;> simp [Val.beqL]
  | a :: as, bs => by
    cases bs with
    | nil => simp [Val.beqL]
    | cons b bs => simp [Val.beqL, Val.beq_iff a b, Val.beqL_iff as bs]

end

instance : DecidableEq Val := fun a b => decidable_of_iff (Val.beq a b = true) (Val.beq_iff a b)

/-- A page's metadata mapping (a Python dict), as an insertion-ordered
association list from string keys to values. -/
structure PageMeta where
  pairs : List (String × Val)
deriving DecidableEq

/-- First-match association-list lookup: Python `d[k]` / `d.get(k)`
(dict keys are unique, so first match is the match). -/
def assocFind {β : Type} (m : List (String × β)) (k : String) : Option β :=
  (m.find? (fun p => p.1 = k)).map (fun p => p.2)

/-- Python `d[k] = v`: overwrite in place if the key exists (keeping its
position, as CPython dicts do), else append the new key at the end. -/
def assocInsert {β : Type} : List (String × β) → String → β → List (String × β)
  | [], k, v => [(k, v)]
  | p :: ps, k, v => if p.1 = k then (k, v) :: ps else p :: assocInsert ps k v

/-- `e.get(k)` on a page's metadata dict. -/
def PageMeta.get (m : PageMeta) (k : String) : Option Val :=
  assocFind m.pairs k

/-- `e[k] = v` on a page's metadata dict. -/
def PageMeta.insert (m : PageMeta) (k : String) (v : Val) : PageMeta :=
  ⟨assocInsert m.pairs k v⟩

/-- `k in e` on a page's metadata dict (Python key-membership test). -/
def PageMeta.hasKey (m : PageMeta) (k : String) : Bool :=
  (m.get k).isSome

/-- Truthiness of a metadata entry, as tested by `if not e: continue`:
`None` is falsy, and an empty dict is falsy. -/
def entryTruthy : Option PageMeta → Bool
  | none => false
  | some e => !e.pairs.isEmpty

-- ### Python string primitives (ASCII fragment, structurally recursive)

/-- The whitespace characters `str.strip()` removes (ASCII fragment). -/
def isPySpace (c : Char) : Bool :=
  c = ' ' || c = '\t' || c = '\n' || c = '\r' || c = '\x0b' || c = '\x0c'

/-- Python `s.strip()`. -/
def pyStrip (s : String) : String :=
  ⟨((s.data.dropWhile isPySpace).reverse.dropWhile isPySpace).reverse⟩

/-- Python `s.startswith(p)`. -/
def pyStartsWith (s p : String) : Bool :=
  p.data.isPrefixOf s.data

/-- Python `s.endswith(p)`. -/
def pyEndsWith (s p : String) : Bool :=
  p.data.reverse.isPrefixOf s.data.reverse

/-- Python `s.lstrip('# ')`: drop every leading `'#'` or `' '`. -/
def pyLstripHashSpace (s : String) : String :=
  ⟨s.data.dropWhile (fun c => c = '#' || c = ' ')⟩

/-- Python `c.lower()` on a single character (ASCII). -/
def pyCharLower (c : Char) : Char :=
  if 'A' ≤ c ∧ c ≤ 'Z' then Char.ofNat (c.toNat + 32) else c

/-- Python `c.upper()` on a single character (ASCII). -/
def pyCharUpper (c : Char) : Char :=
  if 'a' ≤ c ∧ c ≤ 'z' then Char.ofNat (c.toNat - 32) else c

/-- Python `s.lower()` (ASCII). -/
def pyLower (s : String) : String :=
  ⟨s.data.map pyCharLower⟩

/-- Python `s.capitalize()`: first character upper-cased, the rest
lower-cased. -/
def pyCapitalize (s : String) : String :=
  match s.data with
  | [] => ⟨[]⟩
  | c :: cs => ⟨pyCharUpper c :: cs.map pyCharLower⟩

/-- Python `s.replace(c, r)` for a single-character pattern (the only form
the plugin uses: `name.replace('-', ' ').replace('_', ' ')`). -/
def pyReplaceChar (s : String) (c r : Char) : String :=
  ⟨s.data.map (fun x => if x = c then r else x)⟩

/-- `"".join(result)` where each captured line still carries its trailing
newline (Python file iteration yields lines with `'\n'`). -/
def joinLinesNL (ls : List String) : String :=
  String.join (ls.map (fun l => l ++ "\n"))

-- ### `extract_yaml` (plugin.py lines 161-178)

/-- The line-scanning loop of `extract_yaml`, threading the delimiter
counter `c`.  Returns the captured front-matter lines (in order, delimiter
lines excluded) and the optional H1 title candidate found right after the
closing delimiter.  Mirrors the Python loop exactly: a line stripping to
`---` bumps the counter; at counter 2 a blank line is skipped, a `# `-line
sets the title and stops, any other non-blank line stops; at counter 1
lines are captured verbatim; otherwise lines are skipped. -/
def extractYamlAux : List String → Nat → List String × Option String
  | [], _ => ([], none)
  | line :: rest, c =>
    let sline := pyStrip line
    if sline = "---" then
      extractYamlAux rest (c + 1)
    else if c = 2 then
      if sline ≠ "" then
        if pyStartsWith sline "# " then ([], some (pyLstripHashSpace sline))
        else ([], none)
      else extractYamlAux rest c
    else if c = 1 then
      let r := extractYamlAux rest c
      (line :: r.1, r.2)
    else
      extractYamlAux rest c

/-- `extract_yaml(f)`: scan the file's lines from the top with the
counter at 0. -/
def extract_yaml (lines : List String) : List String × Option String :=
  extractYamlAux lines 0

-- ### A small YAML loader (external collaborator, modelled)

/-- Split a character list on a separator character. -/
def splitOnChar (c : Char) : List Char → List (List Char)
  | [] => [[]]
  | x :: xs =>
    let r := splitOnChar c xs
    if x = c then [] :: r
    else
      match r with
      | [] => [[x]]
      | g :: gs => (x :: g) :: gs

/-- Parse an optionally-signed decimal integer, the way YAML scalars like
`6000` come out as Python ints. -/
def parseDigits : List Char → Option Nat
  | [] => none
  | cs => cs.foldl (fun acc c =>
      match acc with
      | none => none
      | some n => if '0' ≤ c ∧ c ≤ '9' then some (n * 10 + (c.toNat - 48)) else none)
      (some 0)

/-- Integer scalar parse (`6000`, `-3`); `none` when not an integer. -/
def parseIntScalar (s : String) : Option Int :=
  match s.data with
  | '-' :: rest => (parseDigits rest).map (fun n => -(n : Int))
  | cs => (parseDigits cs).map (fun n => (n : Int))

/-- A YAML scalar: empty means null, an integer literal means an int,
anything else is a (trimmed) string. -/
def parseScalar (s : String) : Val :=
  let t := pyStrip s
  if t = "" then Val.null
  else
    match parseIntScalar t with
    | some n => Val.int n
    | none => Val.str t

/-- A YAML flow list `[a, b, c]` of scalars; `none` if `s` is not of that
shape. -/
def parseFlowList (s : String) : Option (List Val) :=
  if pyStartsWith s "[" ∧ pyEndsWith s "]" then
    let inner : List Char := (s.data.drop 1).dropLast
    if pyStrip ⟨inner⟩ = "" then some []
    else some ((splitOnChar ',' inner).map (fun g => parseScalar ⟨g⟩))
  else none

/-- One `key: value` mapping line; `none` if the line has no colon. -/
def parseYamlLine (line : String) : Option (String × Val) :=
  let p := line.data.span (fun c => c ≠ ':')
  match p.2 with
  | [] => none
  | _ :: valueChars =>
    let key := pyStrip ⟨p.1⟩
    let rawVal := pyStrip ⟨valueChars⟩
    match parseFlowList rawVal with
    | some vs => some (key, Val.list vs)
    | none => some (key, parseScalar rawVal)

/-- Build a dict from parsed pairs the way Python constructs it
(`d[k] = v` in order: later duplicate keys overwrite in place). -/
def metaOfPairs (ps : List (String × Val)) : PageMeta :=
  ps.foldl (fun m p => m.insert p.1 p.2) ⟨[]⟩

/-- Modelled from the spec: the YAML loader (`yaml.load(..., FullLoader)`)
is a third-party collaborator whose code is not under `src/`; the spec
(§4.1) only requires that the captured text "is parsed as a structured
mapping (keys to scalar/list/nested values)" and that "a parse failure is a
fatal error".  We model the fragment the front matter of this plugin uses:
top-level `key: value` lines with scalar or flow-list values.  `.ok none`
models a document yaml loads as `None` (only blank lines), on which the
subsequent `meta.update` raises; an unparseable line is the fatal parse
error. -/
def miniYamlLoad (s : String) : Except String (Option PageMeta) :=
  let ls := ((splitOnChar '\n' s.data).map (fun g => (⟨g⟩ : String))).filter
    (fun l => pyStrip l ≠ "")
  if ls.isEmpty then Except.ok none
  else
    match ls.mapM parseYamlLine with
    | some ps => Except.ok (some (metaOfPairs ps))
    | none => Except.error "yaml: could not parse front matter as a mapping"

-- ### `get_metadata` post-processing (plugin.py lines 180-191)

/-- Lines 188-189: derive a title from the (full, extension included)
relative filename: replace `-` and `_` by spaces; capitalize only if the
derived string is already all-lowercase. -/
def deriveTitle (name : String) : String :=
  let t := pyReplaceChar (pyReplaceChar name '-' ' ') '_' ' '
  if pyLower t = t then pyCapitalize t else t

/-- Lines 185-191: merge in `filename`, then default `title` when the
parsed mapping lacks one: use the H1 candidate if it is truthy (a falsy
candidate — `None` or the empty string — falls back to the filename-derived
title).  At the final assignment the candidate can no longer be `None`, so
the literal `'Untitled'` branch of line 190 is unreachable here. -/
def finishMeta (name : String) (meta : PageMeta) (title : Option String) : PageMeta :=
  let meta := meta.insert "filename" (Val.str name)
  if ¬meta.hasKey "title" then
    let t :=
      match title with
      | some s => if s = "" then deriveTitle name else s
      | none => deriveTitle name
    meta.insert "title" (Val.str t)
  else meta

/-- `get_metadata(name, path)` (lines 159-191), with the file's content
passed directly (the embedding's stand-in for opening `path / name`).
`.ok none` models the Python function falling off the end and returning
`None` (empty captured buffer); `.error` models a propagated exception
(YAML parse failure, or `meta.update` on a non-mapping document). -/
def get_metadata (name : String) (lines : List String) : Except String (Option PageMeta) :=
  let r := extract_yaml lines
  let metadata := joinLinesNL r.1
  if metadata ≠ "" then
    match miniYamlLoad metadata with
    | Except.error msg => Except.error msg
    | Except.ok none => Except.error "AttributeError: NoneType object has no attribute update"
    | Except.ok (some meta) => Except.ok (some (finishMeta name meta r.2))
  else Except.ok none

-- ### Tag-index building (plugin.py lines 119-150)

/-- A `defaultdict(list)` mapping tags to their pages, insertion-ordered. -/
abbrev TagIndex := List (Val × List PageMeta)

/-- `e.get("tags", [])`. -/
def tagsOf (e : PageMeta) : Val :=
  (e.get "tags").getD (Val.list [])

/-- Whether a value may be used as a dict key (Python hashability):
lists are unhashable. -/
def pyHashable : Val → Bool
  | Val.list _ => false
  | _ => true

/-- Python `len(v)`: defined for lists and strings, a `TypeError`
otherwise (in particular on ints). -/
def pyLen : Val → Except String Nat
  | Val.list xs => Except.ok xs.length
  | Val.str s => Except.ok s.length
  | _ => Except.error "TypeError: object has no len()"

/-- Python iteration `for tag in tags`: a list yields its elements, a
string yields its characters as one-character strings, anything else is a
`TypeError`. -/
def pyIterE : Val → Except String (List Val)
  | Val.list xs => Except.ok xs
  | Val.str s => Except.ok (s.data.map (fun c => Val.str ⟨[c]⟩))
  | _ => Except.error "TypeError: object is not iterable"

/-- The total companion of `pyIterE` (what iteration yields when it is
defined; `[]` on non-iterables, which only matters on paths where the
builder has already raised). -/
def pyIterL : Val → List Val
  | Val.list xs => xs
  | Val.str s => s.data.map (fun c => Val.str ⟨[c]⟩)
  | _ => []

/-- The bucket currently stored for tag `t` (a `defaultdict(list)` read:
`[]` when the key is absent). -/
def bucketOf : TagIndex → Val → List PageMeta
  | [], _ => []
  | p :: ps, t => if p.1 = t then p.2 else bucketOf ps t

/-- `d[tag].append(e)` on a `defaultdict(list)`: append to the existing
bucket in place, or create a new key at the end of the dict. -/
def bucketAppend : TagIndex → Val → PageMeta → TagIndex
  | [], t, e => [(t, [e])]
  | p :: ps, t, e =>
    if p.1 = t then (p.1, p.2 ++ [e]) :: ps
    else p :: bucketAppend ps t e

/-- `d[tag].append(e)` with Python's hashability check on the key. -/
def bucketAppendE (d : TagIndex) (t : Val) (e : PageMeta) : Except String TagIndex :=
  if pyHashable t then Except.ok (bucketAppend d t e) else Except.error "TypeError: unhashable type"

/-- The body of one `update_tags_dict` iteration for a truthy entry `e`
(lines 129-133): `tags = e.get("tags", [])`; only when
`tags is not None and len(tags) > 0` append `e` to the bucket of every
tag occurrence (`len` itself raises on a non-sized value such as an
int). -/
def updPage (d : TagIndex) (e : PageMeta) : Except String TagIndex :=
  let tags := tagsOf e
  if tags = Val.null then Except.ok d
  else
    match pyLen tags with
    | Except.error msg => Except.error msg
    | Except.ok n =>
      if n > 0 then
        match pyIterE tags with
        | Except.error msg => Except.error msg
        | Except.ok items => items.foldlM (fun d t => bucketAppendE d t e) d
      else Except.ok d

/-- One iteration of the `update_tags_dict` loop (lines 125-133):
`if not e: continue`, then the tag-appending body. -/
def updEntry (d : TagIndex) (oe : Option PageMeta) : Except String TagIndex :=
  match oe with
  | none => Except.ok d
  | some e => if e.pairs.isEmpty then Except.ok d else updPage d e

/-- `update_tags_dict` (lines 119-137): rebuild `self.tags_dict` from the
metadata store in discovery order (the diagnostic print does not affect the
index). -/
def update_tags_dict (metadata : List (Option PageMeta)) : Except String TagIndex :=
  metadata.foldlM updEntry []

/-- Line 145-146: `if "title" not in e: e["title"] = "Untitled"`. -/
def withTitle (e : PageMeta) : PageMeta :=
  if ¬e.hasKey "title" then e.insert "title" (Val.str "Untitled") else e

/-- The tag-appending body of one `generate_tags_file` iteration for an
(already title-defaulted) truthy entry `e` (lines 147-150): append to
every tag occurrence when `tags is not None` — no `len` check here. -/
def genPage (d : TagIndex) (e : PageMeta) : Except String TagIndex :=
  let tags := tagsOf e
  if tags = Val.null then Except.ok d
  else
    match pyIterE tags with
    | Except.error msg => Except.error msg
    | Except.ok items => items.foldlM (fun d t => bucketAppendE d t e) d

/-- One iteration of the bucket loop inside `generate_tags_file`
(lines 142-150): `if not e: continue`, default the title in place, then
the tag-appending body. -/
def genEntry (d : TagIndex) (oe : Option PageMeta) : Except String TagIndex :=
  match oe with
  | none => Except.ok d
  | some e0 =>
    if e0.pairs.isEmpty then Except.ok d else genPage d (withTitle e0)

/-- Stable insertion of `x` into a key-sorted list: `x` goes before the
first element whose key is `≥ key x`, so that an element equal in key to an
earlier-inserted one keeps the later position — together with `stableSortBy`
this is extensionally Python's stable `sorted(..., key=...)`. -/
def sInsert {α κ : Type} [LinearOrder κ] (key : α → κ) (x : α) : List α → List α
  | [] => [x]
  | y :: ys => if key x ≤ key y then x :: y :: ys else y :: sInsert key x ys

/-- Stable sort ascending by `key`: the unique reordering that is sorted by
key and keeps the original relative order of key-equal elements — the
extensional behaviour of Python's `sorted(l, key=key)`. -/
def stableSortBy {α κ : Type} [LinearOrder κ] (key : α → κ) : List α → List α
  | [] => []
  | x :: xs => sInsert key x (stableSortBy key xs)

/-- Line 140's sort key: `e.get("year", 5000) if e else 0` — falsy entries
key 0, an integer `year` keys as itself, an absent `year` keys as the
sentinel `5000`.  (A non-integer `year` would make Python's comparison
raise; that shape is outside the modelled fragment and keys like the
absent case.) -/
def yearKey (oe : Option PageMeta) : Int :=
  match oe with
  | none => 0
  | some e =>
    if e.pairs.isEmpty then 0
    else
      match e.get "year" with
      | some (Val.int n) => n
      | _ => 5000

/-- Line 140: `sorted(self.metadata, key=lambda e: e.get("year", 5000) if e else 0)`. -/
def sortedByYear (metadata : List (Option PageMeta)) : List (Option PageMeta) :=
  stableSortBy yearKey metadata

/-- The year-sorted tag index built inside `generate_tags_file`
(lines 140-150). -/
def generate_tags_index (metadata : List (Option PageMeta)) : Except String TagIndex :=
  (sortedByYear metadata).foldlM genEntry []

-- ### Specification-level companions used to state the bucket theorems

/-- How many copies of page `x` one metadata entry contributes to the
`update_tags_dict` bucket of tag `t`: falsy entries contribute nothing, a
truthy entry `e` contributes one copy of `e` per occurrence of `t` among
what iterating its tags value yields. -/
def updContrib (oe : Option PageMeta) (t : Val) (x : PageMeta) : Nat :=
  match oe with
  | none => 0
  | some e =>
    if e.pairs.isEmpty then 0
    else if x = e then (pyIterL (tagsOf e)).count t else 0

/-- How many copies of page `x` one metadata entry contributes to the
`generate_tags_file` bucket of tag `t`: as `updContrib`, except that the
contributed page is the title-defaulted `withTitle e`. -/
def genContrib (oe : Option PageMeta) (t : Val) (x : PageMeta) : Nat :=
  match oe with
  | none => 0
  | some e0 =>
    if e0.pairs.isEmpty then 0
    else if x = withTitle e0 then (pyIterL (tagsOf (withTitle e0))).count t else 0

/-- Page `m` appears in some bucket of the index `d`. -/
def inIdx (d : TagIndex) (m : PageMeta) : Prop :=
  ∃ p ∈ d, m ∈ p.2

/-- The spec's data-model shape for the `tags` front-matter field (§3): if
present it is a sequence (or an explicit null); strings/ints as tag lists
are outside the documented data model. -/
def tagsWF (e : PageMeta) : Bool :=
  match e.get "tags" with
  | none => true
  | some Val.null => true
  | some (Val.list _) => true
  | some _ => false

-- ### Rendering (plugin.py lines 102-117, 139-155)

/-- The render-time sort key of line 115, `lambda t: t[0].lower()`, as a
total function (the `[]` fallback is never consulted: `render_sorted`
validates that every key is a string before sorting, as Python computes all
keys before comparing). -/
def tagSortKey (p : Val × List PageMeta) : List Char :=
  match p.1 with
  | Val.str s => (pyLower s).data
  | _ => []

/-- Line 115: `sorted(data.items(), key=lambda t: t[0].lower())` — CPython
computes the lower-cased key of every item before comparing (an
`AttributeError` on a non-string tag aborts before any output), then
stable-sorts the (tag, pages) pairs ascending by that key. -/
def render_sorted (data : TagIndex) : Except String (List (Val × List PageMeta)) :=
  if data.all (fun p => match p.1 with | Val.str _ => true | _ => false)
  then Except.ok (stableSortBy tagSortKey data)
  else Except.error "AttributeError: object has no attribute lower"

/-- Printable form of a value, for the modelled template below. -/
def valText : Val → String
  | Val.null => "None"
  | Val.str s => s
  | Val.int n => toString n
  | Val.list _ => "[...]"

/-- Modelled from the spec: the template file `tags.md.template` shipped
with the plugin is not under `src/`.  Per the spec (§4.3) the template
mechanism is "a logic-stripped text-substitution system" that receives
exactly the sorted (tag, pages) sequence and deterministically lays out
headings/lists/links from each page's fields; we model it as one concrete
deterministic function of that sequence. -/
def renderTemplate (pairs : List (Val × List PageMeta)) : String :=
  String.join (pairs.map (fun p =>
    "## " ++ valText p.1 ++ "\n" ++
      String.join (p.2.map (fun m =>
        "* [" ++ valText ((m.get "title").getD Val.null) ++ "](" ++
          valText ((m.get "filename").getD Val.null) ++ ")\n"))))

/-- `generate_tags_page` (lines 102-117): sort the (tag, pages) pairs and
hand them to the template. -/
def generate_tags_page (data : TagIndex) : Except String String :=
  match render_sorted data with
  | Except.error msg => Except.error msg
  | Except.ok pairs => Except.ok (renderTemplate pairs)

/-- The text produced by `generate_tags_file` (lines 139-155): build the
year-sorted index and render it (the `open`/`write` at lines 154-155 is the
file-system effect; the written bytes are exactly this text). -/
def generate_tags_file (metadata : List (Option PageMeta)) : Except String String :=
  match generate_tags_index metadata with
  | Except.error msg => Except.error msg
  | Except.ok d => generate_tags_page d

-- ### Pipeline controller (plugin.py lines 26-99)

/-- The resolved mkdocs configuration for this plugin (the `config_scheme`
of lines 26-34, after mkdocs has applied user values over the defaults). -/
structure Config where
  verbose : Bool := false
  tags_filename : String := "tags.md"
  tags_folder : String := "generated"
  tags_template : Option String := none
  tags_target_folder : String := "."
  tags_add_target : Bool := true
  tags_create_target : Bool := true
deriving DecidableEq

/-- The controller's mutable instance state (`__init__`, lines 36-45).
`tags_target_folder` is `None` in `__init__`; the empty string stands for
that `None` here. -/
structure PluginState where
  metadata : List (Option PageMeta)
  verbose : Bool
  tags_filename : String
  tags_folder : String
  tags_template : Option String
  tags_target_folder : String
  tags_add_target : Bool
  tags_create_target : Bool
  tags_dict : TagIndex
deriving DecidableEq

/-- A freshly constructed plugin instance (`__init__`). -/
def initState : PluginState :=
  { metadata := []
    verbose := false
    tags_filename := "tags.md"
    tags_folder := "generated"
    tags_template := none
    tags_target_folder := ""
    tags_add_target := true
    tags_create_target := true
    tags_dict := [] }

/-- Python `a or b` on strings: the left value unless it is falsy
(empty). -/
def strOr (a b : String) : String :=
  if a = "" then b else a

/-- The warning printed by `on_config` at line 72. -/
def meaninglessTargetWarning : String :=
  "WARNING: meaningless target config (requested to add a target, but not generate it)"

/-- `on_config` (lines 54-72): re-assign the options from the resolved
configuration and emit the non-fatal warning when asked to add a target
without generating it.  The `mkdir` of the tags folder (lines 65-66) is a
file-system effect outside the embedding. -/
def on_config (st : PluginState) (cfg : Config) : PluginState × List String :=
  let st :=
    { st with
      verbose := cfg.verbose
      tags_filename := strOr cfg.tags_filename st.tags_filename
      tags_folder := strOr cfg.tags_folder st.tags_folder
      tags_target_folder := strOr cfg.tags_target_folder st.tags_target_folder
      tags_add_target := cfg.tags_add_target
      tags_create_target := cfg.tags_create_target
      tags_template :=
        if (cfg.tags_template.getD "") ≠ "" then cfg.tags_template else st.tags_template }
  let warnings :=
    if st.tags_add_target ∧ ¬st.tags_create_target then [meaninglessTargetWarning] else []
  (st, warnings)

/-- A source file as handed to `on_files` by the host: its `src_path` and
its content (the embedding's stand-in for reading `docs_dir / src_path`). -/
structure SrcFile where
  src_path : String
  lines : List String
deriving DecidableEq

/-- The `File(...)` artifact registered with the host build
(lines 90-95). -/
structure GenFile where
  path : String
  src_dir : String
  dest_dir : String
  use_directory_urls : Bool
deriving DecidableEq

/-- The observable outcome of `on_files`: the new controller state, the
file written to disk (path and byte-exact text), if any, and the artifacts
appended to the host's file collection. -/
structure OnFilesResult where
  state : PluginState
  written : Option (String × String)
  artifacts : List GenFile
deriving DecidableEq

/-- `on_files` (lines 74-96): extract metadata from every `.md` file in
order, rebuild `tags_dict`, and — only when `tags_create_target` — generate
the tags file and, only when additionally `tags_add_target`, register the
generated file with the host build. -/
def on_files (st : PluginState) (files : List SrcFile) (site_dir : String) :
    Except String OnFilesResult :=
  match (files.filter (fun f => pyEndsWith f.src_path ".md")).mapM
      (fun f => get_metadata f.src_path f.lines) with
  | Except.error msg => Except.error msg
  | Except.ok mds =>
    let st := { st with metadata := st.metadata ++ mds }
    match update_tags_dict st.metadata with
    | Except.error msg => Except.error msg
    | Except.ok d =>
      let st := { st with tags_dict := d }
      if st.tags_create_target then
        match generate_tags_file st.metadata with
        | Except.error msg => Except.error msg
        | Except.ok text =>
          let written := some (st.tags_folder ++ "/" ++ st.tags_filename, text)
          if st.tags_add_target then
            Except.ok
              { state := st
                written := written
                artifacts :=
                  [{ path := st.tags_filename
                     src_dir := st.tags_folder
                     dest_dir := site_dir ++ "/" ++ st.tags_target_folder
                     use_directory_urls := false }] }
          else Except.ok { state := st, written := written, artifacts := [] }
      else Except.ok { state := st, written := none, artifacts := [] }

/-- One full build: `on_config` then `on_files`, from a given controller
state. -/
def run_pipeline (st : PluginState) (cfg : Config) (files : List SrcFile)
    (site_dir : String) : Except String OnFilesResult :=
  on_files (on_config st cfg).1 files site_dir

/-- The generated output text of a pipeline run (`none` when the build
aborted or generation was disabled). -/
def pipeline_output (r : Except String OnFilesResult) : Option String :=
  match r with
  | Except.ok res => res.written.map (fun w => w.2)
  | Except.error _ => none

/-- A value stored in a rendered page's `page.meta`: either a front-matter
value or the attached tag index object. -/
inductive PVal where
  | v : Val → PVal
  | idx : TagIndex → PVal
deriving DecidableEq

/-- A host page as seen by `on_page_markdown`: its markdown source and its
`page.meta` mapping. -/
structure Page where
  markdown : String
  meta : List (String × PVal)
deriving DecidableEq

/-- `on_page_markdown` (lines 98-99): set `page.meta['all_tags']` to the
controller's tag index and return `None` (so the host keeps the page's
markdown unchanged). -/
def on_page_markdown (st : PluginState) (page : Page) : Option String × Page :=
  (none, { page with meta := assocInsert page.meta "all_tags" (PVal.idx st.tags_dict) })

-- ### Concrete sample data (used by witnesses and counterexamples)

/-- A sample extracted page carrying a duplicated tag. -/
def samplePage : PageMeta :=
  ⟨[("title", Val.str "T"), ("tags", Val.list [Val.str "a", Val.str "a", Val.str "b"])]⟩

/-- The tag list of `samplePage`. -/
def sampleTags : List Val := [Val.str "a", Val.str "a", Val.str "b"]

/-- The tag index both builders produce from `[some samplePage]`. -/
def sampleIdx : TagIndex := [(Val.str "a", [samplePage, samplePage]), (Val.str "b", [samplePage])]

/-- A page with an integer `year` larger than the sentinel. -/
def yearPage : PageMeta := ⟨[("title", Val.str "Y"), ("year", Val.int 6000)]⟩

/-- A page without a `year`. -/
def noYearPage : PageMeta := ⟨[("title", Val.str "N")]⟩

/-- A page whose front matter maps `tags` to null (a bare `tags:` line). -/
def nullTagsPage : PageMeta := ⟨[("tags", Val.null)]⟩

/-- A configuration asking to add the generated file as a build artifact
while skipping its generation. -/
def cfgSkipGen : Config := { tags_add_target := true, tags_create_target := false }

/-- The controller state right after `on_config` under `cfgSkipGen`. -/
def stateAfterSkipGen : PluginState :=
  { metadata := []
    verbose := false
    tags_filename := "tags.md"
    tags_folder := "generated"
    tags_template := none
    tags_target_folder := "."
    tags_add_target := true
    tags_create_target := false
    tags_dict := [] }

/-- The `on_files` outcome under `cfgSkipGen` with no source files. -/
def resSkipGen : OnFilesResult :=
  { state := stateAfterSkipGen, written := none, artifacts := [] }

/-! ## Helper lemmas -/

-- ### `Except` monad plumbing

theorem except_ok_bind {ε α β : Type} (a : α) (f : α → Except ε β) :
    (Except.ok a >>= f) = f a := rfl

theorem except_error_bind {ε α β : Type} (m : ε) (f : α → Except ε β) :
    ((Except.error m : Except ε α) >>= f) = Except.error m := rfl

theorem except_pure_eq {ε α : Type} (a : α) : (pure a : Except ε α) = Except.ok a := rfl

-- ### Stable sort by key

theorem sInsert_perm {α κ : Type} [LinearOrder κ] (key : α → κ) (x : α) :
    ∀ l : List α, (sInsert key x l).Perm (x :: l)
  | [] => List.Perm.refl _
  | y :: ys => by
    unfold sInsert
    split
    · exact List.Perm.refl _
    · exact ((sInsert_perm key x ys).cons y).trans (List.Perm.swap x y ys)

theorem stableSortBy_perm {α κ : Type} [LinearOrder κ] (key : α → κ) :
    ∀ l : List α, (stableSortBy key l).Perm l
  | [] => List.Perm.refl _
  | x :: xs =>
    (sInsert_perm key x (stableSortBy key xs)).trans ((stableSortBy_perm key xs).cons x)

theorem sInsert_pairwise {α κ : Type} [LinearOrder κ] (key : α → κ) (x : α) :
    ∀ l : List α, l.Pairwise (fun a b => key a ≤ key b) →
      (sInsert key x l).Pairwise (fun a b => key a ≤ key b)
  | [], _ => List.pairwise_singleton _ _
  | y :: ys, h => by
    rw [List.pairwise_cons] at h
    unfold sInsert
    split
    · rename_i hxy
      exact List.Pairwise.cons
        (fun z hz => by
          rcases List.mem_cons.mp hz with rfl | hz
          · exact hxy
          · exact le_trans hxy (h.1 z hz))
        (List.Pairwise.cons h.1 h.2)
    · rename_i hxy
      have hyx : key y ≤ key x := le_of_not_le hxy
      exact List.Pairwise.cons
        (fun z hz => by
          rcases List.mem_cons.mp ((sInsert_perm key x ys).mem_iff.mp hz) with rfl | hz
          · exact hyx
          · exact h.1 z hz)
        (sInsert_pairwise key x ys h.2)

theorem stableSortBy_pairwise {α κ : Type} [LinearOrder κ] (key : α → κ) :
    ∀ l : List α, (stableSortBy key l).Pairwise (fun a b => key a ≤ key b)
  | [] => List.Pairwise.nil
  | x :: xs => sInsert_pairwise key x _ (stableSortBy_pairwise key xs)

theorem sInsert_filter_of_key {α κ : Type} [LinearOrder κ] (key : α → κ) (x : α) (k : κ)
    (hx : key x = k) :
    ∀ l : List α, (sInsert key x l).filter (fun a => decide (key a = k)) =
      x :: l.filter (fun a => decide (key a = k))
  | [] => by simp [sInsert, hx]
  | y :: ys => by
    unfold sInsert
    split
    · simp [List.filter_cons, hx]
    · rename_i hxy
      have hy : ¬(key y = k) := by
        intro hk
        exact hxy (le_of_eq (hx.symm ▸ hk ▸ rfl) : key x ≤ key y)
      simp only [List.filter_cons, hy, decide_eq_true_eq, if_neg hy]
      simp [sInsert_filter_of_key key x k hx ys, hy]

theorem sInsert_filter_of_ne {α κ : Type} [LinearOrder κ] (key : α → κ) (x : α) (k : κ)
    (hx : key x ≠ k) :
    ∀ l : List α, (sInsert key x l).filter (fun a => decide (key a = k)) =
      l.filter (fun a => decide (key a = k))
  | [] => by simp [sInsert, hx]
  | y :: ys => by
    unfold sInsert
    split
    · simp [List.filter_cons, hx]
    · simp [List.filter_cons, sInsert_filter_of_ne key x k hx ys]

theorem stableSortBy_filter {α κ : Type} [LinearOrder κ] (key : α → κ) (k : κ) :
    ∀ l : List α, (stableSortBy key l).filter (fun a => decide (key a = k)) =
      l.filter (fun a => decide (key a = k))
  | [] => rfl
  | x :: xs => by
    by_cases hx : key x = k
    · rw [stableSortBy, sInsert_filter_of_key key x k hx, stableSortBy_filter key k xs,
        List.filter_cons, if_pos (by simp [hx])]
    · rw [stableSortBy, sInsert_filter_of_ne key x k hx, stableSortBy_filter key k xs,
        List.filter_cons, if_neg (by simp [hx])]

-- ### Association-list (Python dict) lemmas

theorem assocFind_cons {β : Type} (p : String × β) (ps : List (String × β)) (k : String) :
    assocFind (p :: ps) k = if p.1 = k then some p.2 else assocFind ps k := by
  by_cases h : p.1 = k
  · simp [assocFind, List.find?_cons_of_pos, h]
  · simp [assocFind, List.find?_cons_of_neg, h]

theorem assocFind_assocInsert_self {β : Type} (k : String) (v : β) :
    ∀ m : List (String × β), assocFind (assocInsert m k v) k = some v
  | [] => by simp [assocInsert, assocFind_cons, assocFind]
  | p :: ps => by
    by_cases h : p.1 = k
    · simp [assocInsert, h, assocFind_cons]
    · simp [assocInsert, h, assocFind_cons, assocFind_assocInsert_self k v ps]

theorem assocFind_assocInsert_ne {β : Type} (k k' : String) (v : β) (hk : k' ≠ k) :
    ∀ m : List (String × β), assocFind (assocInsert m k v) k' = assocFind m k'
  | [] => by
    have h1 : ¬(k = k') := fun hc => hk hc.symm
    simp [assocInsert, assocFind_cons, assocFind, h1]
  | p :: ps => by
    by_cases h : p.1 = k
    · have h1 : ¬(k = k') := fun hc => hk hc.symm
      have h2 : ¬(p.1 = k') := fun hc => hk (by rw [← hc, h])
      simp [assocInsert, h, assocFind_cons, h1, h2]
    · simp [assocInsert, h, assocFind_cons, assocFind_assocInsert_ne k k' v hk ps]

theorem PageMeta.get_insert_self (m : PageMeta) (k : String) (v : Val) :
    (m.insert k v).get k = some v :=
  assocFind_assocInsert_self k v m.pairs

theorem PageMeta.get_insert_ne (m : PageMeta) (k k' : String) (v : Val) (hk : k' ≠ k) :
    (m.insert k v).get k' = m.get k' :=
  assocFind_assocInsert_ne k k' v hk m.pairs

theorem PageMeta.get_of_empty (m : PageMeta) (k : String) (h : m.pairs.isEmpty) :
    m.get k = none := by
  rcases m with ⟨pairs⟩
  cases pairs with
  | nil => rfl
  | cons p ps => simp [List.isEmpty] at h

theorem PageMeta.nonempty_of_get (m : PageMeta) (k : String) (v : Val)
    (h : m.get k = some v) : ¬m.pairs.isEmpty := by
  intro he
  rw [m.get_of_empty k he] at h
  exact Option.noConfusion h

theorem tagsOf_withTitle (e : PageMeta) : tagsOf (withTitle e) = tagsOf e := by
  unfold withTitle
  split
  · unfold tagsOf
    rw [PageMeta.get_insert_ne e "title" "tags" _ (by decide)]
  · rfl

theorem withTitle_of_titled (e : PageMeta) (h : e.get "title" ≠ none) :
    withTitle e = e := by
  unfold withTitle PageMeta.hasKey
  rcases hv : e.get "title" with _ | v
  · exact absurd hv h
  · simp [hv]

-- ### Bucket lemmas

theorem bucketOf_bucketAppend_count (x : PageMeta) (t tq : Val) (e : PageMeta) :
    ∀ d : TagIndex, (bucketOf (bucketAppend d t e) tq).count x =
      (bucketOf d tq).count x + (if tq = t ∧ x = e then 1 else 0)
  | [] => by
    by_cases h : tq = t
    · subst h
      by_cases hx : x = e <;> simp [bucketAppend, bucketOf, hx]
    · simp [bucketAppend, bucketOf, h, Ne.symm h]
  | p :: ps => by
    by_cases h1 : p.1 = t
    · by_cases h2 : p.1 = tq
      · have : tq = t := h2 ▸ h1
        subst this
        by_cases hx : x = e <;>
          simp [bucketAppend, bucketOf, h1, h2, List.count_append, hx]
      · have h3 : ¬(tq = t) := fun hc => h2 (hc ▸ h1)
        have h4 : ¬(t = tq) := fun hc => h3 hc.symm
        simp [bucketAppend, bucketOf, h1, h2, h3, h4]
    · by_cases h2 : p.1 = tq
      · have : ¬(tq = t) := fun hc => h1 (h2.trans hc)
        simp [bucketAppend, bucketOf, h1, h2, this]
      · simp [bucketAppend, bucketOf, h1, h2,
          bucketOf_bucketAppend_count x t tq e ps]

theorem inIdx_bucketAppend (m : PageMeta) (t : Val) (e : PageMeta) :
    ∀ d : TagIndex, inIdx (bucketAppend d t e) m → inIdx d m ∨ m = e
  | [], h => by
    rcases h with ⟨p, hp, hm⟩
    simp [bucketAppend] at hp
    subst hp
    simp at hm
    exact Or.inr hm
  | p :: ps, h => by
    rcases h with ⟨q, hq, hm⟩
    by_cases h1 : p.1 = t
    · simp only [bucketAppend, if_pos h1] at hq
      rcases List.mem_cons.mp hq with rfl | hq
    
      · rcases List.mem_append.mp hm with hm | hm
        · exact Or.inl ⟨p, List.mem_cons_self p ps, hm⟩
        · simp at hm
          exact Or.inr hm
      · exact Or.inl ⟨q, List.mem_cons_of_mem p hq, hm⟩
    · simp only [bucketAppend, if_neg h1] at hq
      rcases List.mem_cons.mp hq with rfl | hq
      · exact Or.inl ⟨q, List.mem_cons_self q ps, hm⟩
      · rcases inIdx_bucketAppend m t e ps ⟨q, hq, hm⟩ with ⟨r, hr, hmr⟩ | hme
        · exact Or.inl ⟨r, List.mem_cons_of_mem p hr, hmr⟩
        · exact Or.inr hme

-- ### Folding one page's tags into the index

theorem foldl_bucketAppendE_count (e : PageMeta) (t : Val) (x : PageMeta) :
    ∀ (ts : List Val) (d d' : TagIndex),
      ts.foldlM (fun d t => bucketAppendE d t e) d = Except.ok d' →
      (bucketOf d' t).count x = (bucketOf d t).count x + (if x = e then ts.count t else 0)
  | [], d, d', h => by
    rw [List.foldlM_nil, except_pure_eq] at h
    cases h
    simp
  | t1 :: ts, d, d', h => by
    rw [List.foldlM_cons] at h
    by_cases hh : pyHashable t1
    · rw [show bucketAppendE d t1 e = Except.ok (bucketAppend d t1 e) from by
        simp [bucketAppendE, hh], except_ok_bind] at h
      have ih := foldl_bucketAppendE_count e t x ts (bucketAppend d t1 e) d' h
      rw [ih, bucketOf_bucketAppend_count x t1 t e d]
      by_cases hx : x = e
      · by_cases ht : t1 = t
        · simp [hx, ht, List.count_cons]
          omega
        · have ht' : ¬(t = t1) := fun hc => ht hc.symm
          simp [hx, ht, ht', List.count_cons]
      · simp [hx]
    · rw [show bucketAppendE d t1 e = Except.error "TypeError: unhashable type" from by
        simp [bucketAppendE, hh], except_error_bind] at h
      exact absurd h (by simp)

theorem foldl_bucketAppendE_inIdx (e : PageMeta) (m : PageMeta) :
    ∀ (ts : List Val) (d d' : TagIndex),
      ts.foldlM (fun d t => bucketAppendE d t e) d = Except.ok d' →
      inIdx d' m → inIdx d m ∨ (m = e ∧ ts ≠ [])
  | [], d, d', h, hm => by
    rw [List.foldlM_nil, except_pure_eq] at h
    cases h
    exact Or.inl hm
  | t1 :: ts, d, d', h, hm => by
    rw [List.foldlM_cons] at h
    by_cases hh : pyHashable t1
    · rw [show bucketAppendE d t1 e = Except.ok (bucketAppend d t1 e) from by
        simp [bucketAppendE, hh], except_ok_bind] at h
      rcases foldl_bucketAppendE_inIdx e m ts (bucketAppend d t1 e) d' h hm with hd | hme
      · rcases inIdx_bucketAppend m t1 e d hd with hd | hme
        · exact Or.inl hd
        · exact Or.inr ⟨hme, by simp⟩
      · exact Or.inr ⟨hme.1, by simp⟩
    · rw [show bucketAppendE d t1 e = Except.error "TypeError: unhashable type" from by
        simp [bucketAppendE, hh], except_error_bind] at h
      exact absurd h (by simp)

-- ### Per-entry counting lemmas

theorem updPage_ok_count (e : PageMeta) (d d' : TagIndex) (t : Val) (x : PageMeta)
    (h : updPage d e = Except.ok d') :
    (bucketOf d' t).count x =
      (bucketOf d t).count x + (if x = e then (pyIterL (tagsOf e)).count t else 0) := by
  unfold updPage at h
  rcases hv : tagsOf e with _ | s | n | xs <;> rw [hv] at h
  · simp only [if_pos rfl] at h
    injection h with h
    subst h
    simp [hv, pyIterL]
  · rw [if_neg (by simp)] at h
    simp only [pyLen] at h
    by_cases hs : s.length > 0
    · rw [if_pos hs] at h
      simp only [pyIterE] at h
      rw [foldl_bucketAppendE_count e t x _ d d' h]
      simp [pyIterL]
    · rw [if_neg hs] at h
      injection h with h
      subst h
      have hdata : s.data = [] := by
        have : s.data.length = 0 := by
          have hl : s.length = s.data.length := rfl
          omega
        exact List.length_eq_zero.mp this
      simp [pyIterL, hdata]
  · rw [if_neg (by simp)] at h
    simp only [pyLen] at h
    exact absurd h (by simp)
  · rw [if_neg (by simp)] at h
    simp only [pyLen] at h
    by_cases hs : xs.length > 0
    · rw [if_pos hs] at h
      simp only [pyIterE] at h
      rw [foldl_bucketAppendE_count e t x _ d d' h]
      simp [pyIterL]
    · rw [if_neg hs] at h
      injection h with h
      subst h
      have hdata : xs = [] := List.length_eq_zero.mp (by omega)
      simp [pyIterL, hdata]

theorem genPage_ok_count (e : PageMeta) (d d' : TagIndex) (t : Val) (x : PageMeta)
    (h : genPage d e = Except.ok d') :
    (bucketOf d' t).count x =
      (bucketOf d t).count x + (if x = e then (pyIterL (tagsOf e)).count t else 0) := by
  unfold genPage at h
  rcases hv : tagsOf e with _ | s | n | xs <;> rw [hv] at h
  · simp only [if_pos rfl] at h
    injection h with h
    subst h
    simp [hv, pyIterL]
  · rw [if_neg (by simp)] at h
    simp only [pyIterE] at h
    rw [foldl_bucketAppendE_count e t x _ d d' h]
    simp [pyIterL]
  · rw [if_neg (by simp)] at h
    simp only [pyIterE] at h
    exact absurd h (by simp)
  · rw [if_neg (by simp)] at h
    simp only [pyIterE] at h
    rw [foldl_bucketAppendE_count e t x _ d d' h]
    simp [pyIterL]

theorem updEntry_ok_count (oe : Option PageMeta) (d d' : TagIndex) (t : Val) (x : PageMeta)
    (h : updEntry d oe = Except.ok d') :
    (bucketOf d' t).count x = (bucketOf d t).count x + updContrib oe t x := by
  cases oe with
  | none =>
    simp only [updEntry] at h
    injection h with h
    subst h
    simp [updContrib]
  | some e =>
    by_cases he : e.pairs.isEmpty
    · simp only [updEntry, if_pos he] at h
      injection h with h
      subst h
      simp [updContrib, he]
    · simp only [updEntry, if_neg he] at h
      rw [updPage_ok_count e d d' t x h]
      simp [updContrib, he]

theorem genEntry_ok_count (oe : Option PageMeta) (d d' : TagIndex) (t : Val) (x : PageMeta)
    (h : genEntry d oe = Except.ok d') :
    (bucketOf d' t).count x = (bucketOf d t).count x + genContrib oe t x := by
  cases oe with
  | none =>
    simp only [genEntry] at h
    injection h with h
    subst h
    simp [genContrib]
  | some e0 =>
    by_cases he : e0.pairs.isEmpty
    · simp only [genEntry, if_pos he] at h
      injection h with h
      subst h
      simp [genContrib, he]
    · simp only [genEntry, if_neg he] at h
      rw [genPage_ok_count (withTitle e0) d d' t x h]
      simp [genContrib, he]

-- ### Whole-store counting lemmas

theorem foldl_updEntry_count (t : Val) (x : PageMeta) :
    ∀ (ms : List (Option PageMeta)) (d d' : TagIndex),
      ms.foldlM updEntry d = Except.ok d' →
      (bucketOf d' t).count x =
        (bucketOf d t).count x + (ms.map (fun oe => updContrib oe t x)).sum
  | [], d, d', h => by
    rw [List.foldlM_nil, except_pure_eq] at h
    injection h with h
    subst h
    simp
  | oe :: ms, d, d', h => by
    rw [List.foldlM_cons] at h
    rcases hstep : updEntry d oe with msg | d1 <;> rw [hstep] at h
    · rw [except_error_bind] at h
      exact absurd h (by simp)
    · rw [except_ok_bind] at h
      rw [foldl_updEntry_count t x ms d1 d' h, updEntry_ok_count oe d d1 t x hstep]
      simp [Nat.add_assoc]

theorem foldl_genEntry_count (t : Val) (x : PageMeta) :
    ∀ (ms : List (Option PageMeta)) (d d' : TagIndex),
      ms.foldlM genEntry d = Except.ok d' →
      (bucketOf d' t).count x =
        (bucketOf d t).count x + (ms.map (fun oe => genContrib oe t x)).sum
  | [], d, d', h => by
    rw [List.foldlM_nil, except_pure_eq] at h
    injection h with h
    subst h
    simp
  | oe :: ms, d, d', h => by
    rw [List.foldlM_cons] at h
    rcases hstep : genEntry d oe with msg | d1 <;> rw [hstep] at h
    · rw [except_error_bind] at h
      exact absurd h (by simp)
    · rw [except_ok_bind] at h
      rw [foldl_genEntry_count t x ms d1 d' h, genEntry_ok_count oe d d1 t x hstep]
      simp [Nat.add_assoc]

theorem update_tags_dict_count (ms : List (Option PageMeta)) (d' : TagIndex) (t : Val)
    (x : PageMeta) (h : update_tags_dict ms = Except.ok d') :
    (bucketOf d' t).count x = (ms.map (fun oe => updContrib oe t x)).sum := by
  have := foldl_updEntry_count t x ms [] d' h
  simpa [bucketOf] using this

theorem generate_tags_index_count (ms : List (Option PageMeta)) (d' : TagIndex) (t : Val)
    (x : PageMeta) (h : generate_tags_index ms = Except.ok d') :
    (bucketOf d' t).count x = (ms.map (fun oe => genContrib oe t x)).sum := by
  have h2 := foldl_genEntry_count t x (sortedByYear ms) [] d' h
  have hperm : ((sortedByYear ms).map (fun oe => genContrib oe t x)).sum =
      (ms.map (fun oe => genContrib oe t x)).sum :=
    ((stableSortBy_perm yearKey ms).map (fun oe => genContrib oe t x)).sum_eq
  rw [h2, hperm]
  simp [bucketOf]

-- ### Provenance of bucketed pages

theorem updPage_ok_inIdx (e m : PageMeta) (d d' : TagIndex)
    (h : updPage d e = Except.ok d') (hm : inIdx d' m) :
    inIdx d m ∨ (m = e ∧ pyIterL (tagsOf e) ≠ []) := by
  unfold updPage at h
  rcases hv : tagsOf e with _ | s | n | xs <;> rw [hv] at h
  · simp only [if_pos rfl] at h
    injection h with h
    subst h
    exact Or.inl hm
  · rw [if_neg (by simp)] at h
    simp only [pyLen] at h
    by_cases hs : s.length > 0
    · rw [if_pos hs] at h
      simp only [pyIterE] at h
      rcases foldl_bucketAppendE_inIdx e m _ d d' h hm with hd | ⟨hme, hne⟩
      · exact Or.inl hd
      · exact Or.inr ⟨hme, by simp [pyIterL, hne]⟩
    · rw [if_neg hs] at h
      injection h with h
      subst h
      exact Or.inl hm
  · rw [if_neg (by simp)] at h
    simp only [pyLen] at h
    exact absurd h (by simp)
  · rw [if_neg (by simp)] at h
    simp only [pyLen] at h
    by_cases hs : xs.length > 0
    · rw [if_pos hs] at h
      simp only [pyIterE] at h
      rcases foldl_bucketAppendE_inIdx e m _ d d' h hm with hd | ⟨hme, hne⟩
      · exact Or.inl hd
      · exact Or.inr ⟨hme, by simp [pyIterL, hne]⟩
    · rw [if_neg hs] at h
      injection h with h
      subst h
      exact Or.inl hm

theorem genPage_ok_inIdx (e m : PageMeta) (d d' : TagIndex)
    (h : genPage d e = Except.ok d') (hm : inIdx d' m) :
    inIdx d m ∨ (m = e ∧ pyIterL (tagsOf e) ≠ []) := by
  unfold genPage at h
  rcases hv : tagsOf e with _ | s | n | xs <;> rw [hv] at h
  · simp only [if_pos rfl] at h
    injection h with h
    subst h
    exact Or.inl hm
  · rw [if_neg (by simp)] at h
    simp only [pyIterE] at h
    rcases foldl_bucketAppendE_inIdx e m _ d d' h hm with hd | ⟨hme, hne⟩
    · exact Or.inl hd
    · exact Or.inr ⟨hme, by simp [pyIterL, hne]⟩
  · rw [if_neg (by simp)] at h
    simp only [pyIterE] at h
    exact absurd h (by simp)
  · rw [if_neg (by simp)] at h
    simp only [pyIterE] at h
    rcases foldl_bucketAppendE_inIdx e m _ d d' h hm with hd | ⟨hme, hne⟩
    · exact Or.inl hd
    · exact Or.inr ⟨hme, by simp [pyIterL, hne]⟩

theorem foldl_updEntry_inIdx (m : PageMeta) :
    ∀ (ms : List (Option PageMeta)) (d d' : TagIndex),
      ms.foldlM updEntry d = Except.ok d' → inIdx d' m →
      inIdx d m ∨ ∃ e, some e ∈ ms ∧ ¬e.pairs.isEmpty ∧ m = e ∧ pyIterL (tagsOf e) ≠ []
  | [], d, d', h, hm => by
    rw [List.foldlM_nil, except_pure_eq] at h
    injection h with h
    subst h
    exact Or.inl hm
  | oe :: ms, d, d', h, hm => by
    rw [List.foldlM_cons] at h
    rcases hstep : updEntry d oe with msg | d1 <;> rw [hstep] at h
    · rw [except_error_bind] at h
      exact absurd h (by simp)
    · rw [except_ok_bind] at h
      rcases foldl_updEntry_inIdx m ms d1 d' h hm with hd1 | ⟨e, hmem, hne, hme, hit⟩
      · cases oe with
        | none =>
          simp only [updEntry] at hstep
          injection hstep with hstep
          subst hstep
          exact Or.inl hd1
        | some e =>
          by_cases he : e.pairs.isEmpty
          · simp only [updEntry, if_pos he] at hstep
            injection hstep with hstep
            subst hstep
            exact Or.inl hd1
          · simp only [updEntry, if_neg he] at hstep
            rcases updPage_ok_inIdx e m d d1 hstep hd1 with hd | ⟨hme, hit⟩
            · exact Or.inl hd
            · exact Or.inr ⟨e, List.mem_cons_self _ _, he, hme, hit⟩
      · exact Or.inr ⟨e, List.mem_cons_of_mem oe hmem, hne, hme, hit⟩

theorem foldl_genEntry_inIdx (m : PageMeta) :
    ∀ (ms : List (Option PageMeta)) (d d' : TagIndex),
      ms.foldlM genEntry d = Except.ok d' → inIdx d' m →
      inIdx d m ∨ ∃ e0, some e0 ∈ ms ∧ ¬e0.pairs.isEmpty ∧ m = withTitle e0 ∧
        pyIterL (tagsOf (withTitle e0)) ≠ []
  | [], d, d', h, hm => by
    rw [List.foldlM_nil, except_pure_eq] at h
    injection h with h
    subst h
    exact Or.inl hm
  | oe :: ms, d, d', h, hm => by
    rw [List.foldlM_cons] at h
    rcases hstep : genEntry d oe with msg | d1 <;> rw [hstep] at h
    · rw [except_error_bind] at h
      exact absurd h (by simp)
    · rw [except_ok_bind] at h
      rcases foldl_genEntry_inIdx m ms d1 d' h hm with hd1 | ⟨e0, hmem, hne, hme, hit⟩
      · cases oe with
        | none =>
          simp only [genEntry] at hstep
          injection hstep with hstep
          subst hstep
          exact Or.inl hd1
        | some e0 =>
          by_cases he : e0.pairs.isEmpty
          · simp only [genEntry, if_pos he] at hstep
            injection hstep with hstep
            subst hstep
            exact Or.inl hd1
          · simp only [genEntry, if_neg he] at hstep
            rcases genPage_ok_inIdx (withTitle e0) m d d1 hstep hd1 with hd | ⟨hme, hit⟩
            · exact Or.inl hd
            · exact Or.inr ⟨e0, List.mem_cons_self _ _, he, hme, hit⟩
      · exact Or.inr ⟨e0, List.mem_cons_of_mem oe hmem, hne, hme, hit⟩

theorem update_tags_dict_inIdx (ms : List (Option PageMeta)) (d' : TagIndex) (m : PageMeta)
    (h : update_tags_dict ms = Except.ok d') (hm : inIdx d' m) :
    ∃ e, some e ∈ ms ∧ ¬e.pairs.isEmpty ∧ m = e ∧ pyIterL (tagsOf e) ≠ [] := by
  rcases foldl_updEntry_inIdx m ms [] d' h hm with hd | hp
  · rcases hd with ⟨p, hp, _⟩
    exact absurd hp (List.not_mem_nil p)
  · exact hp

theorem generate_tags_index_inIdx (ms : List (Option PageMeta)) (d' : TagIndex) (m : PageMeta)
    (h : generate_tags_index ms = Except.ok d') (hm : inIdx d' m) :
    ∃ e0, some e0 ∈ ms ∧ ¬e0.pairs.isEmpty ∧ m = withTitle e0 ∧
      pyIterL (tagsOf (withTitle e0)) ≠ [] := by
  rcases foldl_genEntry_inIdx m (sortedByYear ms) [] d' h hm with hd | ⟨e0, hmem, hrest⟩
  · rcases hd with ⟨p, hp, _⟩
    exact absurd hp (List.not_mem_nil p)
  · exact ⟨e0, (stableSortBy_perm yearKey ms).mem_iff.mp hmem, hrest⟩

-- ### Indicator sums

theorem sum_map_ite_count (b : Option PageMeta) (c : Nat) :
    ∀ l : List (Option PageMeta), (l.map (fun o => if o = b then c else 0)).sum = l.count b * c
  | [] => by simp
  | a :: l => by
    simp only [List.map_cons, List.sum_cons, sum_map_ite_count b c l, List.count_cons,
      beq_iff_eq]
    by_cases h : a = b
    · rw [if_pos h, if_pos h]
      ring
    · rw [if_neg h, if_neg h]
      ring

-- ### Contribution evaluation under the claims' hypotheses

theorem updContrib_eval (P : PageMeta) (ts : List Val) (t : Val)
    (hP : ¬P.pairs.isEmpty) (htags : tagsOf P = Val.list ts) :
    ∀ oe : Option PageMeta, updContrib oe t P = if oe = some P then ts.count t else 0 := by
  intro oe
  cases oe with
  | none => simp [updContrib]
  | some e =>
    by_cases he : e = P
    · subst he
      simp [updContrib, hP, htags, pyIterL]
    · have hPe : ¬(P = e) := fun hc => he hc.symm
      simp [updContrib, hPe, he]

theorem genContrib_eval (P : PageMeta) (ts : List Val) (t : Val)
    (hP : ¬P.pairs.isEmpty) (htags : tagsOf P = Val.list ts) :
    ∀ oe : Option PageMeta, (∀ e : PageMeta, oe = some e → e.get "title" ≠ none) →
      genContrib oe t P = if oe = some P then ts.count t else 0 := by
  intro oe htitled
  cases oe with
  | none => simp [genContrib]
  | some e =>
    have hwt : withTitle e = e := withTitle_of_titled e (htitled e rfl)
    by_cases he : e = P
    · subst he
      simp [genContrib, hP, hwt, htags, pyIterL]
    · have hPe : ¬(P = e) := fun hc => he hc.symm
      simp [genContrib, hwt, hPe, he]

-- ### Shapes of bucketed pages' tags under the data-model hypothesis

theorem tags_shape_of_wf (e : PageMeta) (hwf : tagsWF e) (hne : pyIterL (tagsOf e) ≠ []) :
    ∃ ts, tagsOf e = Val.list ts ∧ ts ≠ [] := by
  unfold tagsWF at hwf
  rcases hv : e.get "tags" with _ | v
  · exfalso
    apply hne
    unfold tagsOf
    rw [hv]
    rfl
  · have htag : tagsOf e = v := by
      unfold tagsOf
      rw [hv]
      rfl
    rw [hv] at hwf
    rcases v with _ | s | n | xs
    · exfalso
      apply hne
      rw [htag]
      rfl
    · exact absurd hwf (by simp)
    · exact absurd hwf (by simp)
    · refine ⟨xs, htag, fun hxs => hne ?_⟩
      rw [htag, hxs]
      rfl

-- ### `extract_yaml` on delimiter-free input

theorem extractYamlAux_no_delim :
    ∀ lines : List String, (∀ l ∈ lines, pyStrip l ≠ "---") →
      extractYamlAux lines 0 = ([], none)
  | [], _ => rfl
  | line :: rest, h => by
    have hline : pyStrip line ≠ "---" := h line (List.mem_cons_self _ _)
    unfold extractYamlAux
    simp only [if_neg hline]
    rw [if_neg (by omega : ¬(0 : Nat) = 2), if_neg (by omega : ¬(0 : Nat) = 1)]
    exact extractYamlAux_no_delim rest (fun l hl => h l (List.mem_cons_of_mem line hl))

/-! ## Claims -/

/-- C1: For every page P in the metadata store with a non-empty tags list, and
for every tag T occurring in P's tags list, the bucket for T in the built tag
index (both the `update_tags_dict` index and the year-sorted
`generate_tags_file` index) contains P exactly as many times as T appears in
P's list — repeated identical tags are appended once per occurrence, with no
deduplication.  Python appends the same object reference; object identity is
modelled by requiring P to occur exactly once in the store, and the store to
consist of extracted pages (which always carry a `title`, so the
title-defaulting of `generate_tags_file` is the identity on them). -/
theorem C1_bucket_multiplicity (ms : List (Option PageMeta)) (P : PageMeta) (ts : List Val)
    (d1 d2 : TagIndex)
    (h1 : update_tags_dict ms = Except.ok d1)
    (h2 : generate_tags_index ms = Except.ok d2)
    (hcount : ms.count (some P) = 1)
    (htitled : ∀ e : PageMeta, some e ∈ ms → e.get "title" ≠ none)
    (htags : tagsOf P = Val.list ts)
    (hne : ts ≠ []) :
    ∀ t ∈ ts, (bucketOf d1 t).count P = ts.count t ∧ (bucketOf d2 t).count P = ts.count t := by
  intro t ht
  have hmem : some P ∈ ms := List.count_pos_iff.mp (by omega)
  have hPt : P.get "title" ≠ none := htitled P hmem
  have hPne : ¬P.pairs.isEmpty := by
    rcases hv : P.get "title" with _ | v
    · exact absurd hv hPt
    · exact PageMeta.nonempty_of_get P "title" v hv
  constructor
  · rw [update_tags_dict_count ms d1 t P h1,
      List.map_congr_left (fun oe _ => updContrib_eval P ts t hPne htags oe),
      sum_map_ite_count (some P) (ts.count t) ms, hcount, one_mul]
  · rw [generate_tags_index_count ms d2 t P h2,
      List.map_congr_left (fun oe hoe =>
        genContrib_eval P ts t hPne htags oe (fun e hee => htitled e (hee ▸ hoe))),
      sum_map_ite_count (some P) (ts.count t) ms, hcount, one_mul]

/-- Witness for C1 at a concrete store: one page tagged `[a, a, b]` lands
twice in bucket `a` of both indices. -/
theorem C1_bucket_multiplicity_witness :
    (bucketOf sampleIdx (Val.str "a")).count samplePage = sampleTags.count (Val.str "a") ∧
    (bucketOf sampleIdx (Val.str "a")).count samplePage = sampleTags.count (Val.str "a") :=
  C1_bucket_multiplicity [some samplePage] samplePage sampleTags sampleIdx sampleIdx
    (by decide) (by decide) (by decide)
    (fun e he => by
      have h1 : some e = some samplePage := List.mem_singleton.mp he
      injection h1 with h1
      subst h1
      decide)
    (by decide) (by decide) (Val.str "a") (by decide)

/-- C2: a page whose `tags` is absent or the empty list appears in no
bucket of either the raw-order index or the year-sorted index (`tagsOf m =
Val.list []` is exactly "absent key or empty list", since `e.get("tags", [])`
defaults an absent key to `[]`); and, under the spec's data model for
`tags` (absent, null, or a list — §3 of the spec), every page present in
any bucket of either index has a non-empty tags list. -/
theorem C2_buckets_need_nonempty_tags (ms : List (Option PageMeta)) (d1 d2 : TagIndex)
    (h1 : update_tags_dict ms = Except.ok d1)
    (h2 : generate_tags_index ms = Except.ok d2) :
    (∀ P : PageMeta, tagsOf P = Val.list [] → ¬inIdx d1 P ∧ ¬inIdx d2 P) ∧
    ((∀ e : PageMeta, some e ∈ ms → tagsWF e) →
      ∀ m : PageMeta, inIdx d1 m ∨ inIdx d2 m → ∃ ts, tagsOf m = Val.list ts ∧ ts ≠ []) := by
  constructor
  · intro P hP
    constructor
    · intro hin
      rcases update_tags_dict_inIdx ms d1 P h1 hin with ⟨e, _, _, hme, hit⟩
      apply hit
      rw [← hme, hP]
      rfl
    · intro hin
      rcases generate_tags_index_inIdx ms d2 P h2 hin with ⟨e0, _, _, hme, hit⟩
      apply hit
      rw [← hme, hP]
      rfl
  · intro hwf m hm
    rcases hm with hm | hm
    · rcases update_tags_dict_inIdx ms d1 m h1 hm with ⟨e, hmem, _, hme, hit⟩
      rw [hme]
      exact tags_shape_of_wf e (hwf e hmem) hit
    · rcases generate_tags_index_inIdx ms d2 m h2 hm with ⟨e0, hmem, _, hme, hit⟩
      rw [hme, tagsOf_withTitle]
      exact tags_shape_of_wf e0 (hwf e0 hmem) (by rwa [tagsOf_withTitle] at hit)

/-- Witness for C2: a page with an empty tags list is in no bucket of the
index built from `[some samplePage]`, and the bucketed `samplePage` indeed
has a non-empty tags list. -/
theorem C2_buckets_need_nonempty_tags_witness :
    (¬inIdx sampleIdx ⟨[("tags", Val.list [])]⟩ ∧ ¬inIdx sampleIdx ⟨[("tags", Val.list [])]⟩) ∧
    (∃ ts, tagsOf samplePage = Val.list ts ∧ ts ≠ []) :=
  ⟨(C2_buckets_need_nonempty_tags [some samplePage] sampleIdx sampleIdx
      (by decide) (by decide)).1 ⟨[("tags", Val.list [])]⟩ (by decide),
   (C2_buckets_need_nonempty_tags [some samplePage] sampleIdx sampleIdx
      (by decide) (by decide)).2
     (fun e he => by
       have hh : some e = some samplePage := List.mem_singleton.mp he
       injection hh with hh
       subst hh
       decide)
     samplePage (Or.inl ⟨(Val.str "a", [samplePage, samplePage]), by decide, by decide⟩)⟩

/-- C9: A page whose front matter maps `tags` to null (a bare `tags:` line)
is treated as having no tags by both index builders: processing it leaves
the index unchanged and raises no error (`tags is not None` short-circuits
before `len`), and it appears in no bucket of either index. -/
theorem C9_null_tags_ignored (e : PageMeta) (hnull : tagsOf e = Val.null) :
    (∀ d : TagIndex, updEntry d (some e) = Except.ok d ∧ genEntry d (some e) = Except.ok d) ∧
    (∀ (ms : List (Option PageMeta)) (d1 d2 : TagIndex),
      update_tags_dict ms = Except.ok d1 → generate_tags_index ms = Except.ok d2 →
      ¬inIdx d1 e ∧ ¬inIdx d2 e) := by
  constructor
  · intro d
    constructor
    · by_cases he : e.pairs.isEmpty
      · simp [updEntry, he]
      · simp [updEntry, he, updPage, hnull]
    · by_cases he : e.pairs.isEmpty
      · simp [genEntry, he]
      · simp [genEntry, he, genPage, tagsOf_withTitle, hnull]
  · intro ms d1 d2 h1 h2
    constructor
    · intro hin
      rcases update_tags_dict_inIdx ms d1 e h1 hin with ⟨e', _, _, hee, hit⟩
      apply hit
      rw [← hee, hnull]
      rfl
    · intro hin
      rcases generate_tags_index_inIdx ms d2 e h2 hin with ⟨e0, _, _, hee, hit⟩
      apply hit
      rw [← hee, hnull]
      rfl

/-- Witness for C9 at the concrete null-tags page. -/
theorem C9_null_tags_ignored_witness :
    (updEntry [] (some nullTagsPage) = Except.ok [] ∧
      genEntry [] (some nullTagsPage) = Except.ok []) ∧
    (¬inIdx [] nullTagsPage ∧ ¬inIdx [] nullTagsPage) :=
  ⟨(C9_null_tags_ignored nullTagsPage (by decide)).1 [],
   (C9_null_tags_ignored nullTagsPage (by decide)).2 [some nullTagsPage] [] []
     (by decide) (by decide)⟩

/-- C3 (counterexample): a file whose delimiter counter never reaches 2 —
here exactly one line strips to `---`, followed by a content line — does NOT
make the extractor return "no metadata": the lines after the single
delimiter are captured as front matter and a full metadata record is
returned. -/
theorem C3_single_delimiter_counterexample :
    ((["---", "tags: [x]"].filter (fun l => pyStrip l = "---")).length < 2) ∧
    get_metadata "a.md" ["---", "tags: [x]"] =
      Except.ok (some ⟨[("tags", Val.list [Val.str "x"]), ("filename", Val.str "a.md"),
        ("title", Val.str "A.md")]⟩) ∧
    get_metadata "a.md" ["---", "tags: [x]"] ≠ Except.ok none :=
  ⟨by decide, by decide, by decide⟩

/-- C3 (amended): the extractor returns no metadata (and raises no error)
whenever the captured buffer is empty; in particular for every file in
which NO line strips to `---` (the counter never even reaches 1).  A file
with exactly one delimiter followed by content lines instead captures those
lines as front matter and returns metadata (see the counterexample). -/
theorem C3_no_delimiter_no_metadata (name : String) (lines : List String)
    (h : (lines.filter (fun l => pyStrip l = "---")).length = 0) :
    get_metadata name lines = Except.ok none := by
  have hnone : ∀ l ∈ lines, pyStrip l ≠ "---" := by
    intro l hl
    have := List.filter_eq_nil_iff.mp (List.length_eq_zero.mp h) l hl
    simpa using this
  have hex : extract_yaml lines = ([], none) := extractYamlAux_no_delim lines hnone
  unfold get_metadata
  rw [hex]
  rfl

/-- Witness for the amended C3 at a concrete delimiter-free file. -/
theorem C3_no_delimiter_no_metadata_witness :
    get_metadata "x.md" ["hello", "world"] = Except.ok none :=
  C3_no_delimiter_no_metadata "x.md" ["hello", "world"] (by decide)

/-- C4 (counterexample), in two parts.  First, the filename derivation
keeps the extension: `foo-bar.md` with front matter, no `title` key and no
H1 gets title `"Foo bar.md"`, not the claimed `"Foo bar"`.  Second, the H1
clause "the title becomes the H1 candidate if one was captured" also fails
as stated: the H1 line `# #` yields a captured-but-empty candidate
(`lstrip('# ')` strips it to `""`), and the code then falls back to the
filename-derived title instead of using the captured candidate. -/
theorem C4_extension_kept_counterexample :
    (get_metadata "foo-bar.md" ["---", "tags: [x]", "---", "content"] =
      Except.ok (some ⟨[("tags", Val.list [Val.str "x"]), ("filename", Val.str "foo-bar.md"),
        ("title", Val.str "Foo bar.md")]⟩) ∧
      Val.str "Foo bar.md" ≠ Val.str "Foo bar") ∧
    ((extract_yaml ["---", "tags: [x]", "---", "# #"]).2 = some "" ∧
      get_metadata "foo-bar.md" ["---", "tags: [x]", "---", "# #"] =
        Except.ok (some ⟨[("tags", Val.list [Val.str "x"]), ("filename", Val.str "foo-bar.md"),
          ("title", Val.str "Foo bar.md")]⟩)) :=
  ⟨⟨by decide, by decide⟩, by decide, by decide⟩

/-- C4 (amended): when the parsed front matter lacks a `title` key, the
title becomes the captured H1 candidate when that candidate is non-empty;
a captured empty candidate (reachable via an H1 line such as `# #`) falls
back — exactly like an absent candidate — to the title derived from the
full filename (extension included) by `deriveTitle`: every `-` and `_`
replaced by a space, capitalized only if the derived string is already
all-lowercase; in particular `foo-bar.md` derives `"Foo bar.md"`. -/
theorem C4_title_defaulting :
    (∀ (name : String) (meta : PageMeta) (cand : String),
      meta.get "title" = none → cand ≠ "" →
      (finishMeta name meta (some cand)).get "title" = some (Val.str cand)) ∧
    (∀ (name : String) (meta : PageMeta),
      meta.get "title" = none →
      (finishMeta name meta (some "")).get "title" = some (Val.str (deriveTitle name))) ∧
    (∀ (name : String) (meta : PageMeta),
      meta.get "title" = none →
      (finishMeta name meta none).get "title" = some (Val.str (deriveTitle name))) ∧
    deriveTitle "foo-bar.md" = "Foo bar.md" := by
  refine ⟨?_, ?_, ?_, by decide⟩
  · intro name meta cand hnone hcand
    unfold finishMeta
    have hget : (meta.insert "filename" (Val.str name)).get "title" = none := by
      rw [PageMeta.get_insert_ne meta "filename" "title" _ (by decide)]
      exact hnone
    have hkey : ¬(meta.insert "filename" (Val.str name)).hasKey "title" := by
      rw [PageMeta.hasKey, hget]
      simp
    rw [if_pos hkey]
    show ((meta.insert "filename" (Val.str name)).insert "title"
      (Val.str (if cand = "" then deriveTitle name else cand))).get "title" =
      some (Val.str cand)
    rw [if_neg hcand]
    exact PageMeta.get_insert_self _ "title" (Val.str cand)
  · intro name meta hnone
    unfold finishMeta
    have hget : (meta.insert "filename" (Val.str name)).get "title" = none := by
      rw [PageMeta.get_insert_ne meta "filename" "title" _ (by decide)]
      exact hnone
    have hkey : ¬(meta.insert "filename" (Val.str name)).hasKey "title" := by
      rw [PageMeta.hasKey, hget]
      simp
    rw [if_pos hkey]
    show ((meta.insert "filename" (Val.str name)).insert "title"
      (Val.str (if "" = "" then deriveTitle name else ""))).get "title" =
      some (Val.str (deriveTitle name))
    rw [if_pos rfl]
    exact PageMeta.get_insert_self _ "title" (Val.str (deriveTitle name))
  · intro name meta hnone
    unfold finishMeta
    have hget : (meta.insert "filename" (Val.str name)).get "title" = none := by
      rw [PageMeta.get_insert_ne meta "filename" "title" _ (by decide)]
      exact hnone
    have hkey : ¬(meta.insert "filename" (Val.str name)).hasKey "title" := by
      rw [PageMeta.hasKey, hget]
      simp
    rw [if_pos hkey]
    exact PageMeta.get_insert_self _ "title" (Val.str (deriveTitle name))

/-- Witness for the amended C4: a non-empty H1 candidate wins; an empty
captured candidate and an absent candidate both fall back to the
filename-derived title. -/
theorem C4_title_defaulting_witness :
    (finishMeta "a-b.md" ⟨[]⟩ (some "My H1")).get "title" = some (Val.str "My H1") ∧
    (finishMeta "a-b.md" ⟨[]⟩ (some "")).get "title" = some (Val.str (deriveTitle "a-b.md")) ∧
    (finishMeta "a-b.md" ⟨[]⟩ none).get "title" = some (Val.str (deriveTitle "a-b.md")) :=
  ⟨C4_title_defaulting.1 "a-b.md" ⟨[]⟩ "My H1" (by decide) (by decide),
   C4_title_defaulting.2.1 "a-b.md" ⟨[]⟩ (by decide),
   C4_title_defaulting.2.2.1 "a-b.md" ⟨[]⟩ (by decide)⟩

/-- C5: whenever the renderer's sort succeeds, the resulting (tag, pages)
sequence is ascending in the lower-cased tag name (`tagSortKey`), is a
permutation of the index's entries (so each tag keeps its original casing
and bucket), consists of string tags only, and is stable: tags with equal
lower-cased names stay in the index's insertion order. -/
theorem C5_render_sorted_case_insensitive (data : TagIndex)
    (out : List (Val × List PageMeta)) (h : render_sorted data = Except.ok out) :
    out.Pairwise (fun a b => tagSortKey a ≤ tagSortKey b) ∧
    out.Perm data ∧
    (∀ p ∈ out, ∃ s, p.1 = Val.str s) ∧
    (∀ k : List Char, out.filter (fun p => decide (tagSortKey p = k)) =
      data.filter (fun p => decide (tagSortKey p = k))) := by
  unfold render_sorted at h
  by_cases hall : data.all (fun p => match p.1 with | Val.str _ => true | _ => false)
  · rw [if_pos hall] at h
    injection h with h
    subst h
    refine ⟨stableSortBy_pairwise tagSortKey data, stableSortBy_perm tagSortKey data, ?_,
      fun k =>
        (List.filter_congr (fun a _ => decide_eq_decide.mpr Iff.rfl)).trans
          ((stableSortBy_filter tagSortKey k data).trans
            (List.filter_congr (fun a _ => decide_eq_decide.mpr Iff.rfl)))⟩
    intro p hp
    have hpd : p ∈ data := (stableSortBy_perm tagSortKey data).mem_iff.mp hp
    have hstr := List.all_eq_true.mp hall p hpd
    rcases hv : p.1 with _ | s | n | xs
    · rw [hv] at hstr
      exact absurd hstr (by simp)
    · exact ⟨s, rfl⟩
    · rw [hv] at hstr
      exact absurd hstr (by simp)
    · rw [hv] at hstr
      exact absurd hstr (by simp)
  · rw [if_neg hall] at h
    exact absurd h (by simp)

/-- Witness for C5: `{"b": [], "A": []}` renders as `A` before `b`
(case-insensitive ascending), a permutation of the input pairs. -/
theorem C5_render_sorted_case_insensitive_witness :
    ([((Val.str "A" : Val), ([] : List PageMeta)), (Val.str "b", [])]).Perm
      [(Val.str "b", []), (Val.str "A", [])] :=
  (C5_render_sorted_case_insensitive [(Val.str "b", []), (Val.str "A", [])]
    [(Val.str "A", []), (Val.str "b", [])] (by decide)).2.1

/-- C6 (counterexample): the sentinel for an absent `year` is 5000, not "a
very large value that sorts last": a page with `year: 6000` sorts AFTER the
absent-year page, contradicting "for every page that does carry a year
value, the absent-year pages sort after it". -/
theorem C6_absent_year_not_last_counterexample :
    yearPage.get "year" = some (Val.int 6000) ∧
    noYearPage.get "year" = none ∧
    sortedByYear [some yearPage, some noYearPage] = [some noYearPage, some yearPage] :=
  ⟨by decide, by decide, by decide⟩

/-- C6 (amended): `generate_tags_file` pre-sorts the metadata stably
ascending by `yearKey`: an integer `year` keys as itself, an absent `year`
keys as the sentinel 5000 (so absent-year pages sort after pages with
year < 5000 but before pages with year > 5000), and falsy entries key
as 0. -/
theorem C6_year_sort_sentinel :
    (∀ ms : List (Option PageMeta),
      (sortedByYear ms).Pairwise (fun a b => yearKey a ≤ yearKey b) ∧
      (sortedByYear ms).Perm ms ∧
      (∀ k : Int, (sortedByYear ms).filter (fun oe => decide (yearKey oe = k)) =
        ms.filter (fun oe => decide (yearKey oe = k)))) ∧
    (∀ e : PageMeta, ¬e.pairs.isEmpty → e.get "year" = none → yearKey (some e) = 5000) ∧
    (∀ (e : PageMeta) (n : Int), ¬e.pairs.isEmpty → e.get "year" = some (Val.int n) →
      yearKey (some e) = n) ∧
    yearKey none = 0 := by
  refine ⟨fun ms => ⟨stableSortBy_pairwise yearKey ms, stableSortBy_perm yearKey ms,
    fun k =>
      (List.filter_congr (fun a _ => decide_eq_decide.mpr Iff.rfl)).trans
        ((stableSortBy_filter yearKey k ms).trans
          (List.filter_congr (fun a _ => decide_eq_decide.mpr Iff.rfl)))⟩, ?_, ?_, rfl⟩
  · intro e he hy
    simp [yearKey, he, hy]
  · intro e n he hy
    simp [yearKey, he, hy]

/-- Witness for the amended C6 at the concrete pages. -/
theorem C6_year_sort_sentinel_witness :
    yearKey (some noYearPage) = 5000 ∧ yearKey (some yearPage) = 6000 :=
  ⟨C6_year_sort_sentinel.2.1 noYearPage (by decide) (by decide),
   C6_year_sort_sentinel.2.2.1 yearPage 6000 (by decide) (by decide)⟩

/-- C7: with `tags_add_target = true` and `tags_create_target = false`, the
configure step emits exactly the non-fatal "meaningless target config"
warning, and the file-discovery step neither writes a generated tags file
nor registers any artifact with the host build: generation-skip wins. -/
theorem C7_skip_generation_wins (cfg : Config) (st : PluginState) (files : List SrcFile)
    (site : String) (res : OnFilesResult)
    (hadd : cfg.tags_add_target = true) (hcreate : cfg.tags_create_target = false) :
    (on_config st cfg).2 = [meaninglessTargetWarning] ∧
    (on_files (on_config st cfg).1 files site = Except.ok res →
      res.written = none ∧ res.artifacts = []) := by
  constructor
  · simp [on_config, hadd, hcreate]
  · intro h
    unfold on_files at h
    split at h
    · exact absurd h (by simp)
    · simp only [] at h
      split at h
      · exact absurd h (by simp)
      · split at h
        · rename_i hcond
          exfalso
          simp [on_config, hcreate] at hcond
        · injection h with h
          subst h
          exact ⟨rfl, rfl⟩

/-- Witness for C7 at the concrete skip-generation configuration. -/
theorem C7_skip_generation_wins_witness :
    (on_config initState cfgSkipGen).2 = [meaninglessTargetWarning] ∧
    (resSkipGen.written = none ∧ resSkipGen.artifacts = []) :=
  ⟨(C7_skip_generation_wins cfgSkipGen initState [] "site" resSkipGen rfl rfl).1,
   (C7_skip_generation_wins cfgSkipGen initState [] "site" resSkipGen rfl rfl).2 (by decide)⟩

/-- C8: the pipeline is deterministic — two runs of configure + discover +
generate over the same configuration and source tree, each from a fresh
controller state, produce the same generated output text.  In the
embedding the whole pipeline is a pure function of the configuration and
the file contents: the model fixes exactly the orders CPython guarantees
(dict insertion order, stable `sorted`), so no nondeterminism exists to
begin with. -/
theorem C8_pipeline_deterministic (st1 st2 : PluginState) (cfg : Config)
    (files : List SrcFile) (site : String)
    (h1 : st1 = initState) (h2 : st2 = initState) :
    pipeline_output (run_pipeline st1 cfg files site) =
      pipeline_output (run_pipeline st2 cfg files site) := by
  subst h1
  subst h2
  rfl

/-- Witness for C8 on a concrete one-page tree. -/
theorem C8_pipeline_deterministic_witness :
    pipeline_output (run_pipeline initState {} [⟨"a.md", ["---", "tags: [x]", "---"]⟩] "site") =
      pipeline_output (run_pipeline initState {} [⟨"a.md", ["---", "tags: [x]", "---"]⟩] "site") :=
  C8_pipeline_deterministic initState initState {} [⟨"a.md", ["---", "tags: [x]", "---"]⟩]
    "site" rfl rfl

/-- C10: the per-page transform only returns `None` (leaving the page's
markdown unchanged) and sets the `all_tags` key of the page's metadata to
the exposed tag index; every other metadata key is left unchanged. -/
theorem C10_on_page_markdown_frame (st : PluginState) (page : Page) :
    (on_page_markdown st page).1 = none ∧
    ((on_page_markdown st page).2).markdown = page.markdown ∧
    assocFind ((on_page_markdown st page).2).meta "all_tags" = some (PVal.idx st.tags_dict) ∧
    (∀ k : String, k ≠ "all_tags" →
      assocFind ((on_page_markdown st page).2).meta k = assocFind page.meta k) :=
  ⟨rfl, rfl, assocFind_assocInsert_self "all_tags" (PVal.idx st.tags_dict) page.meta,
   fun k hk => assocFind_assocInsert_ne "all_tags" k (PVal.idx st.tags_dict) hk page.meta⟩

/-- Witness for C10: an unrelated key is untouched on a concrete page. -/
theorem C10_on_page_markdown_frame_witness :
    assocFind ((on_page_markdown initState ⟨"body", [("x", PVal.v Val.null)]⟩).2).meta "x" =
      assocFind (⟨"body", [("x", PVal.v Val.null)]⟩ : Page).meta "x" :=
  (C10_on_page_markdown_frame initState ⟨"body", [("x", PVal.v Val.null)]⟩).2.2.2 "x" (by decide)
